import Mathlib

/-!
Verification of the poem ACME auto-certificate core and two HTTP services.

The development shallowly embeds, in Lean, the parts of the repository that
the verified properties talk about:

* the ACME module constants (`src/poem/src/listener/acme/mod.rs`);
* the static-file service (`src/src/service/files.rs`), modelling request
  paths as component lists and the filesystem as an oracle;
* the websocket extractor (`src/src/web/websocket/extractor.rs`);
* the ACME client behaviour (nonce handling, badNonce retry, certificate
  cache and renewal scheduler, single-flight provisioning, handshake-time
  certificate selection, and the order orchestrator state machine).  The
  ACME submodules themselves are not present in the source tree, only their
  declaring module, so those parts are modelled from the specification; each
  such definition says so in its doc comment.
-/

/- ===================== ACME module constants ===================== -/

/-- Production directory url constant from `src/poem/src/listener/acme/mod.rs`. -/
def LETS_ENCRYPT_PRODUCTION : String := "https://acme-v02.api.letsencrypt.org/directory"

/-- Staging directory url constant from `src/poem/src/listener/acme/mod.rs`. -/
def LETS_ENCRYPT_STAGING : String := "https://acme-staging-v02.api.letsencrypt.org/directory"

/- ===================== Nonce management (C1) ===================== -/

/-- Modelled from the spec: the ACME client (module `client`, absent from the
source tree) holds at most one fresh nonce between requests, together with the
list of nonce values it has already presented to the CA. -/
structure NonceState where
  held : Option String
  consumed : List String
deriving DecidableEq, Repr

/-- Modelled from the spec: one signed request.  The held nonce is consumed
(appended to the consumed sequence) and the nonce carried by the CA response
replay-nonce header becomes the held nonce for the next request.  A request
cannot be signed without a held nonce. -/
def signedRequest (st : NonceState) (replyNonce : String) : Option NonceState :=
  match st.held with
  | none => none
  | some n => some { held := some replyNonce, consumed := st.consumed ++ [n] }

/-- Modelled from the spec: a sequence of signed requests, each fed by the
replay-nonce header of the corresponding CA response. -/
def runSignedRequests (st : NonceState) : List String → Option NonceState
  | [] => some st
  | r :: rs =>
    match signedRequest st r with
    | none => none
    | some st1 => runSignedRequests st1 rs

/- ===================== badNonce retry (C2) ===================== -/

/-- Outcome of a signed request attempt loop. -/
inductive AcmeSendOutcome where
  | success
  | fatalBadNonce
deriving DecidableEq, Repr

/-- Modelled from the spec: the signed-request retry loop of the JWS caller
(module `client`, absent from the source tree).  The CA is modelled by the
predicate `fresh` (which nonce values it currently accepts) and by `replays`,
the stream of replay-nonce header values it attaches to its responses.  Each
attempt presents the current nonce; on a badNonce problem the nonce from the
response replay-nonce header is used for one more attempt, at most `fuel`
times, after which the attempt is a fatal protocol error.  The result pairs
the trace of presented nonce values with the outcome. -/
def sendWithRetry (fresh : String → Bool) (replays : Nat → String) :
    Nat → Nat → String → List String × AcmeSendOutcome
  | fuel, i, nonce =>
    if fresh nonce then ([nonce], AcmeSendOutcome.success)
    else
      match fuel with
      | 0 => ([nonce], AcmeSendOutcome.fatalBadNonce)
      | fuel' + 1 =>
        let rest := sendWithRetry fresh replays fuel' (i + 1) (replays i)
        (nonce :: rest.1, rest.2)

/- ===================== Certificate cache (C3, C4) ===================== -/

/-- A cached certificate entry: certificate chain bytes paired with the key
bytes, plus validity bounds (seconds). -/
structure CertificateEntry where
  chain : List Nat
  privateKey : List Nat
  notBefore : Nat
  notAfter : Nat
deriving DecidableEq, Repr

/-- Modelled from the spec: the certificate cache maps a hostname to its
current entry. -/
def CertCache := List (String × CertificateEntry)

/-- Cache lookup: returns the entry stored for the hostname, if any. -/
def cacheLookup (c : CertCache) (h : String) : Option CertificateEntry :=
  match c.find? (fun kv => kv.1 == h) with
  | some kv => some kv.2
  | none => none

/-- Whole-entry replacement of the binding for a hostname. -/
def cacheInsert (c : CertCache) (h : String) (e : CertificateEntry) : CertCache :=
  (h, e) :: c.filter (fun kv => kv.1 != h)

/-- Errors a renewal run can end in. -/
inductive RenewError where
  | caInternal
  | storage
deriving DecidableEq, Repr

/-- Modelled from the spec: one renewal run for a hostname.  The orchestrator
result `ca` either yields a new entry or a CA error; persisting the new entry
through the storage backend `store` may fail; only when both steps succeed is
the cache entry swapped, atomically and as a whole unit.  The run returns the
new cache state and the reported failure, if any. -/
def renewRun (ca : Except RenewError CertificateEntry)
    (store : CertificateEntry → Except RenewError Unit)
    (c : CertCache) (h : String) : CertCache × Option RenewError :=
  match ca with
  | Except.error e => (c, some e)
  | Except.ok entry =>
    match store entry with
    | Except.error e => (c, some e)
    | Except.ok _ => (cacheInsert c h entry, none)

/-- One day in seconds. -/
def secondsPerDay : Nat := 86400

/-- Modelled from the spec: the renewal scheduler check.  An entry needs
renewal exactly when the time remaining before its not-after is within the
configured renewal window. -/
def needsRenewal (now : Nat) (entry : CertificateEntry) (window : Nat) : Bool :=
  decide (entry.notAfter ≤ now + window)

/- ===================== Single-flight provisioning (C5) ===================== -/

/-- Modelled from the spec: the guarded table of in-progress hostname-set
provisioning runs, together with a count of Order Orchestrator executions
launched so far. -/
structure FlightState where
  inflight : List (List String)
  executions : Nat
deriving DecidableEq, Repr

/-- Modelled from the spec: one handshake arriving for a hostname set while
holding the single-flight guard.  If a run for the same hostname set is
already in progress the handshake joins it; otherwise a new Orchestrator
execution is launched and recorded. -/
def handshakeArrive (st : FlightState) (hs : List String) : FlightState :=
  if st.inflight.contains hs then st
  else { inflight := hs :: st.inflight, executions := st.executions + 1 }

/-- Modelled from the spec: `n` handshakes for the same hostname set, each
serialized through the single-flight guard. -/
def handshakeArrivals (st : FlightState) : Nat → List String → FlightState
  | 0, _ => st
  | n + 1, hs => handshakeArrivals (handshakeArrive st hs) n hs

/- ===================== Handshake certificate selection (C6) ===================== -/

/-- What the listener adapter decides to do with an incoming handshake. -/
inductive ServeDecision where
  | challengeCert (chain : List Nat)
  | cachedCert (entry : CertificateEntry)
  | provision
  | handshakeFail
deriving DecidableEq, Repr

/-- The ALPN protocol identifier of the TLS-ALPN-01 validation handshake. -/
def ACME_TLS_ALPN_NAME : String := "acme-tls/1"

/-- Modelled from the spec: the auto-cert listener adapter's fixed two-step
certificate selection (module `listener`, absent from the source tree).  If
the client's ALPN list requests `acme-tls/1` the Challenge Resolver's
ephemeral certificate table is consulted, and nothing else; otherwise the
production certificate cache is consulted, serving the entry when present and
unexpired, and triggering or joining an Orchestrator run otherwise. -/
def selectCertificate (challengeTable : String → Option (List Nat))
    (cache : CertCache) (now : Nat) (alpn : List String) (sni : String) :
    ServeDecision :=
  if alpn.contains ACME_TLS_ALPN_NAME then
    match challengeTable sni with
    | some chain => ServeDecision.challengeCert chain
    | none => ServeDecision.handshakeFail
  else
    match cacheLookup cache sni with
    | some entry =>
      if now < entry.notAfter then ServeDecision.cachedCert entry
      else ServeDecision.provision
    | none => ServeDecision.provision

/- ===================== Order orchestrator (C7) ===================== -/

/-- Status of one authorization, as reported by the CA. -/
inductive AuthzStatus where
  | pending
  | processing
  | valid
  | invalid
deriving DecidableEq, Repr

/-- Modelled from the spec: phases of the Order Orchestrator state machine,
carrying the most recent authorization statuses of the order. -/
inductive OrderPhase where
  | created
  | authzInFlight (authz : List AuthzStatus)
  | finalizing (authz : List AuthzStatus)
  | orderValid (authz : List AuthzStatus)
  | downloaded (authz : List AuthzStatus)
  | orderInvalid
deriving DecidableEq, Repr

/-- Externally observable actions the orchestrator step can perform. -/
inductive OrchestratorAction where
  | createOrder
  | beginAuthorizations
  | pollAgain
  | postFinalize
  | downloadCert
  | abortOrder
deriving DecidableEq, Repr

/-- Inputs driving one orchestrator step: CA responses and poll results. -/
inductive OrchestratorInput where
  | orderResponse (n : Nat)
  | pollResult (authz : List AuthzStatus)
  | finalizeResponse (ok : Bool)
  | certificateResponse
deriving DecidableEq, Repr

/-- Modelled from the spec: the explicit step function of the Order
Orchestrator state machine (module `auto_cert`, absent from the source tree).
Order creation yields pending authorizations; a poll result carrying any
`invalid` authorization aborts the whole order immediately; only a poll
result with every authorization `valid` moves to finalizing, and that
transition is the only one posting the CSR to the finalize URL; a successful
finalize response makes the order valid and triggers the certificate
download.  Inputs that do not fit the current phase leave it unchanged. -/
def orchestratorStep (ph : OrderPhase) (inp : OrchestratorInput) :
    OrderPhase × Option OrchestratorAction :=
  match ph, inp with
  | OrderPhase.created, OrchestratorInput.orderResponse n =>
    (OrderPhase.authzInFlight (List.replicate n AuthzStatus.pending),
      some OrchestratorAction.beginAuthorizations)
  | OrderPhase.authzInFlight _, OrchestratorInput.pollResult authz =>
    if authz.contains AuthzStatus.invalid then
      (OrderPhase.orderInvalid, some OrchestratorAction.abortOrder)
    else if authz.all (fun s => s = AuthzStatus.valid) then
      (OrderPhase.finalizing authz, some OrchestratorAction.postFinalize)
    else
      (OrderPhase.authzInFlight authz, some OrchestratorAction.pollAgain)
  | OrderPhase.finalizing authz, OrchestratorInput.finalizeResponse ok =>
    if ok then (OrderPhase.orderValid authz, some OrchestratorAction.downloadCert)
    else (OrderPhase.orderInvalid, some OrchestratorAction.abortOrder)
  | OrderPhase.orderValid authz, OrchestratorInput.certificateResponse =>
    (OrderPhase.downloaded authz, none)
  | ph, _ => (ph, none)

/- ===================== Static file service (C9) ===================== -/

/-- HTTP methods relevant to the embedded services. -/
inductive Method where
  | GET
  | POST
  | PUT
  | DELETE
  | HEAD
deriving DecidableEq, Repr

/-- HTTP status codes used by the embedded services. -/
inductive StatusCode where
  | METHOD_NOT_ALLOWED
  | FORBIDDEN
  | NOT_FOUND
  | INTERNAL_SERVER_ERROR
  | BAD_REQUEST
deriving DecidableEq, Repr

/-- What the filesystem holds at a resolved path; an oracle standing for the
real filesystem consulted by `Files::call`. -/
inductive FsNode where
  | missing
  | file
  | dir
deriving DecidableEq, Repr

/-- The `Files` service configuration (`src/src/service/files.rs`): base
directory path (as a component list), directory-listing flag, optional index
file name. -/
structure Files where
  path : List String
  show_files_listing : Bool
  index_file : Option String
deriving DecidableEq, Repr

/-- Responses of the embedded `Files::call`: an error status, a file body
served from a resolved path, or a rendered directory listing. -/
inductive FilesResponse where
  | error (status : StatusCode)
  | fileBody (path : List String)
  | listing (path : List String)
deriving DecidableEq, Repr

/-- Splitting a character sequence at the path separator. -/
def splitSlashAux (cur : List Char) (acc : List String) : List Char → List String
  | [] => acc ++ [String.mk cur.reverse]
  | c :: rest =>
    if c = '/' then splitSlashAux [] (acc ++ [String.mk cur.reverse]) rest
    else splitSlashAux (c :: cur) acc rest

/-- The component sequence `Path::new(path)` iterates over in `Files::call`,
after `trim_start_matches('/')` and `trim_end_matches('/')`: split on the
separator, empty components dropped (both the trimmed separators and repeated
separators yield empty pieces, which the component iterator never produces). -/
def pathComponents (s : String) : List String :=
  (splitSlashAux [] [] s.data).filter (fun c => c ≠ "")

/-- The component loop of `Files::call`: `.` components are skipped, `..`
pops one component (`PathBuf::pop`, a no-op at the root), anything else is
pushed. -/
def resolveComponents (basePath : List String) (comps : List String) : List String :=
  comps.foldl
    (fun fp p =>
      if p = "." then fp
      else if p = ".." then fp.dropLast
      else fp ++ [p])
    basePath

/-- The path `Files::call` resolves from the request URI path. -/
def resolveRequestPath (basePath : List String) (uriPath : String) : List String :=
  resolveComponents basePath (pathComponents uriPath)

/-- Embedding of `Files::call` (`src/src/service/files.rs` lines 95-165).
Non-GET methods are rejected first; then the request path is resolved
component by component against the base directory; a resolved path that does
not start with the base directory is FORBIDDEN before the filesystem oracle
`fs` is consulted; then missing paths are NOT_FOUND, files are served, and
directories serve the index file or a listing when configured. -/
def Files.call (svc : Files) (fs : List String → FsNode) (method : Method)
    (uriPath : String) : FilesResponse :=
  if method ≠ Method.GET then FilesResponse.error StatusCode.METHOD_NOT_ALLOWED
  else
    let file_path := resolveRequestPath svc.path uriPath
    if ¬ (svc.path.isPrefixOf file_path) then FilesResponse.error StatusCode.FORBIDDEN
    else if fs file_path = FsNode.missing then FilesResponse.error StatusCode.NOT_FOUND
    else if fs file_path = FsNode.file then FilesResponse.fileBody file_path
    else
      match svc.index_file with
      | some index =>
        if fs (file_path ++ [index]) = FsNode.file then
          FilesResponse.fileBody (file_path ++ [index])
        else if svc.show_files_listing then FilesResponse.listing file_path
        else FilesResponse.error StatusCode.NOT_FOUND
      | none =>
        if svc.show_files_listing then FilesResponse.listing file_path
        else FilesResponse.error StatusCode.NOT_FOUND

/- ===================== WebSocket extractor (C10) ===================== -/

/-- The request fields `WebSocket::from_request` reads
(`src/src/web/websocket/extractor.rs`): the method, the handshake headers
(absent headers are `none`), and whether the hyper upgrade handle is still
present in the request state. -/
structure WsRequest where
  method : Method
  connection : Option String
  upgrade : Option String
  sec_websocket_version : Option String
  sec_websocket_key : Option String
  sec_websocket_protocol : Option String
  on_upgrade_present : Bool
deriving DecidableEq, Repr

/-- The extracted `WebSocket` value: the client key, the configured known
protocols (initially none), and the request's protocol header. -/
structure WebSocket where
  key : String
  protocols : Option (List String)
  sec_websocket_protocol : Option String
deriving DecidableEq, Repr

/-- Embedding of `WebSocket::from_request`
(`src/src/web/websocket/extractor.rs` lines 25-54).  The method must be GET
and the Connection, Upgrade and Sec-WebSocket-Version headers must equal the
exact expected values, otherwise BAD_REQUEST; a missing Sec-WebSocket-Key is
BAD_REQUEST; an already-taken upgrade handle is INTERNAL_SERVER_ERROR; on
success the extracted value carries the request's key. -/
def WebSocket.from_request (req : WsRequest) : Except StatusCode WebSocket :=
  if req.method ≠ Method.GET
      ∨ req.connection ≠ some "Upgrade"
      ∨ req.upgrade ≠ some "websocket"
      ∨ req.sec_websocket_version ≠ some "13" then
    Except.error StatusCode.BAD_REQUEST
  else
    match req.sec_websocket_key with
    | none => Except.error StatusCode.BAD_REQUEST
    | some key =>
      if req.on_upgrade_present then
        Except.ok
          { key := key
            protocols := none
            sec_websocket_protocol := req.sec_websocket_protocol }
      else Except.error StatusCode.INTERNAL_SERVER_ERROR

/- ===================== Theorems ===================== -/

theorem runSignedRequests_consumed_eq (rs : List String) (st st' : NonceState)
    (h : runSignedRequests st rs = some st') :
    st'.consumed ++ st'.held.toList = st.consumed ++ st.held.toList ++ rs := by
  induction rs generalizing st with
  | nil =>
    simp only [runSignedRequests, Option.some.injEq] at h
    subst h
    simp
  | cons r rs ih =>
    cases hh : st.held with
    | none => simp [runSignedRequests, signedRequest, hh] at h
    | some n =>
      simp only [runSignedRequests, signedRequest, hh] at h
      have := ih _ h
      simp only [this, hh]
      simp

/-- Claim C1: across any sequence of signed requests, each request consumes
the single held nonce and the next nonce comes from the CA response, so if
the CA-issued nonce values (the initial one and every replay-nonce header)
are pairwise distinct, the sequence of consumed nonces has no duplicates. -/
theorem nonces_consumed_nodup (n0 : String) (rs : List String) (st' : NonceState)
    (hfresh : (n0 :: rs).Nodup)
    (hrun : runSignedRequests { held := some n0, consumed := [] } rs = some st') :
    st'.consumed.Nodup := by
  have h := runSignedRequests_consumed_eq rs _ _ hrun
  have h2 : (st'.consumed ++ st'.held.toList).Nodup := by
    rw [h]
    simpa using hfresh
  exact List.Nodup.sublist (List.sublist_append_left _ _) h2

/-- Witness for claim C1 at a concrete run of three signed requests. -/
theorem nonces_consumed_nodup_witness :
    ({ held := some "d", consumed := ["a", "b", "c"] } : NonceState).consumed.Nodup :=
  nonces_consumed_nodup "a" ["b", "c", "d"] _ (by decide) (by decide)

/-- Claim C2: a badNonce response is followed by exactly one retry carrying
the replay-nonce from the response, a value different from the failed
attempt, and the retry succeeds when that nonce is fresh; when every
presented nonce keeps being rejected, the bounded retry loop terminates in a
fatal protocol error, never a silent success. -/
theorem badNonce_single_retry (fresh : String → Bool) (replays : Nat → String)
    (fuel i : Nat) (nonce : String) :
    (fresh nonce = false → fresh (replays i) = true →
      sendWithRetry fresh replays (fuel + 1) i nonce
          = ([nonce, replays i], AcmeSendOutcome.success) ∧ replays i ≠ nonce) ∧
    ((∀ m, fresh m = false) →
      (sendWithRetry fresh replays fuel i nonce).2 = AcmeSendOutcome.fatalBadNonce) := by
  constructor
  · intro h1 h2
    constructor
    · have hinner : sendWithRetry fresh replays fuel (i + 1) (replays i)
          = ([replays i], AcmeSendOutcome.success) := by
        unfold sendWithRetry
        simp [h2]
      simp [sendWithRetry, h1, h2, hinner]
    · intro heq
      rw [heq, h1] at h2
      exact Bool.false_ne_true h2
  · intro hall
    induction fuel generalizing i nonce with
    | zero => simp [sendWithRetry, hall]
    | succ fuel ih => simp [sendWithRetry, hall, ih]

/-- Witness for claim C2: a stale nonce followed by a fresh replay-nonce, and
a CA rejecting everything. -/
theorem badNonce_single_retry_witness :
    (sendWithRetry (fun s => s == "f") (fun _ => "f") 3 0 "s"
        = (["s", "f"], AcmeSendOutcome.success) ∧ ("f" : String) ≠ "s") ∧
    (sendWithRetry (fun _ => false) (fun _ => "f") 2 0 "s").2
        = AcmeSendOutcome.fatalBadNonce :=
  ⟨(badNonce_single_retry (fun s => s == "f") (fun _ => "f") 2 0 "s").1
      (by decide) (by decide),
   (badNonce_single_retry (fun _ => false) (fun _ => "f") 2 0 "s").2 (fun _ => rfl)⟩

/-- Claim C3: when a renewal run for a hostname fails, at the CA step or at
the storage step, the cache it returns is the cache it started from, so every
previously held entry is still retrievable via lookup, byte for byte. -/
theorem failed_renewal_preserves_cache (ca : Except RenewError CertificateEntry)
    (store : CertificateEntry → Except RenewError Unit) (c : CertCache)
    (h h' : String) (e : RenewError)
    (hfail : (renewRun ca store c h).2 = some e) :
    cacheLookup (renewRun ca store c h).1 h' = cacheLookup c h' := by
  cases ca with
  | error e2 => simp [renewRun]
  | ok entry =>
    cases hst : store entry with
    | error e2 => simp [renewRun, hst]
    | ok u => simp [renewRun, hst] at hfail

/-- Witness for claim C3: a CA internal error leaves the cached entry of
example.com untouched. -/
theorem failed_renewal_preserves_cache_witness :
    cacheLookup
      (renewRun (Except.error RenewError.caInternal) (fun _ => Except.ok ())
        [("example.com", ⟨[1, 2], [3], 0, 100⟩)] "example.com").1 "example.com"
      = cacheLookup [("example.com", ⟨[1, 2], [3], 0, 100⟩)] "example.com" :=
  failed_renewal_preserves_cache (Except.error RenewError.caInternal)
    (fun _ => Except.ok ()) [("example.com", ⟨[1, 2], [3], 0, 100⟩)]
    "example.com" "example.com" RenewError.caInternal (by decide)

/-- Claim C4: the renewal check triggers exactly when the time remaining
before not-after is within the configured window: with a 30-day window, a
check 29 days before expiry triggers and a check 31 days before expiry does
not. -/
theorem renewal_window_boundary (entry : CertificateEntry)
    (hbig : 31 * secondsPerDay ≤ entry.notAfter) :
    needsRenewal (entry.notAfter - 29 * secondsPerDay) entry (30 * secondsPerDay) = true ∧
    needsRenewal (entry.notAfter - 31 * secondsPerDay) entry (30 * secondsPerDay) = false ∧
    (∀ now window, needsRenewal now entry window = true ↔ entry.notAfter ≤ now + window) := by
  refine ⟨?_, ?_, ?_⟩
  · simp only [needsRenewal, decide_eq_true_eq, secondsPerDay] at hbig ⊢
    omega
  · simp only [needsRenewal, decide_eq_false_iff_not, secondsPerDay] at hbig ⊢
    omega
  · intro now window
    simp [needsRenewal]

/-- Witness for claim C4 at a certificate expiring at day 40. -/
theorem renewal_window_boundary_witness :
    needsRenewal (40 * 86400 - 29 * 86400) ⟨[], [], 0, 40 * 86400⟩ (30 * 86400) = true ∧
    needsRenewal (40 * 86400 - 31 * 86400) ⟨[], [], 0, 40 * 86400⟩ (30 * 86400) = false :=
  ⟨((renewal_window_boundary ⟨[], [], 0, 40 * 86400⟩ (by decide)).1),
   ((renewal_window_boundary ⟨[], [], 0, 40 * 86400⟩ (by decide)).2.1)⟩

theorem handshakeArrivals_of_inflight (st : FlightState) (n : Nat) (hs : List String)
    (h : st.inflight.contains hs = true) : handshakeArrivals st n hs = st := by
  induction n with
  | zero => rfl
  | succ n ih =>
    have harr : handshakeArrive st hs = st := by
      unfold handshakeArrive
      rw [if_pos h]
    calc handshakeArrivals st (n + 1) hs
        = handshakeArrivals (handshakeArrive st hs) n hs := rfl
      _ = handshakeArrivals st n hs := by rw [harr]
      _ = st := ih

/-- Claim C5: any positive number of handshakes for a hostname set with no
in-progress run, serialized through the single-flight guard, launches exactly
one Order Orchestrator execution; every later handshake joins the run already
recorded in the guarded table. -/
theorem single_flight_one_execution (st : FlightState) (n : Nat) (hs : List String)
    (hnew : st.inflight.contains hs = false) (hn : 1 ≤ n) :
    (handshakeArrivals st n hs).executions = st.executions + 1 := by
  cases n with
  | zero => omega
  | succ n =>
    have h1 : handshakeArrive st hs
        = { inflight := hs :: st.inflight, executions := st.executions + 1 } := by
      unfold handshakeArrive
      rw [if_neg (by simpa using hnew)]
    have h2 : (handshakeArrive st hs).inflight.contains hs = true := by
      rw [h1]
      simp
    calc (handshakeArrivals st (n + 1) hs).executions
        = (handshakeArrivals (handshakeArrive st hs) n hs).executions := rfl
      _ = (handshakeArrive st hs).executions := by
          rw [handshakeArrivals_of_inflight _ n hs h2]
      _ = st.executions + 1 := by rw [h1]

/-- Witness for claim C5: three handshakes for an unseen hostname set launch
one execution. -/
theorem single_flight_one_execution_witness :
    (handshakeArrivals { inflight := [], executions := 0 } 3 ["example.com"]).executions
      = 0 + 1 :=
  single_flight_one_execution { inflight := [], executions := 0 } 3 ["example.com"]
    (by decide) (by decide)

/-- Claim C6: the listener adapter applies the fixed two-step selection: an
ALPN list requesting acme-tls/1 is answered from the Challenge Resolver's
ephemeral table and never from the production cache; any other handshake is
answered from the certificate cache when the entry is present and unexpired,
and triggers or joins an Orchestrator run otherwise. -/
theorem adapter_two_step_selection (challengeTable : String → Option (List Nat))
    (cache : CertCache) (now : Nat) (alpn : List String) (sni : String) :
    (alpn.contains ACME_TLS_ALPN_NAME = true →
      (∀ chain, challengeTable sni = some chain →
        selectCertificate challengeTable cache now alpn sni
          = ServeDecision.challengeCert chain) ∧
      (∀ entry, selectCertificate challengeTable cache now alpn sni
          ≠ ServeDecision.cachedCert entry)) ∧
    (alpn.contains ACME_TLS_ALPN_NAME = false →
      (∀ entry, cacheLookup cache sni = some entry →
        (now < entry.notAfter →
          selectCertificate challengeTable cache now alpn sni
            = ServeDecision.cachedCert entry) ∧
        (¬ now < entry.notAfter →
          selectCertificate challengeTable cache now alpn sni
            = ServeDecision.provision)) ∧
      (cacheLookup cache sni = none →
        selectCertificate challengeTable cache now alpn sni
          = ServeDecision.provision)) := by
  constructor
  · intro halpn
    have hmem : ACME_TLS_ALPN_NAME ∈ alpn := by simpa using halpn
    constructor
    · intro chain hc
      simp [selectCertificate, hmem, hc]
    · intro entry
      cases hc : challengeTable sni with
      | none => simp [selectCertificate, hmem, hc]
      | some chain => simp [selectCertificate, hmem, hc]
  · intro halpn
    have hmem : ACME_TLS_ALPN_NAME ∉ alpn := by simpa using halpn
    constructor
    · intro entry hent
      constructor
      · intro hfreshness
        simp [selectCertificate, hmem, hent, hfreshness]
      · intro hexpired
        simp [selectCertificate, hmem, hent, hexpired]
    · intro hnone
      simp [selectCertificate, hmem, hnone]

/-- Witness for claim C6 at a concrete challenge table and cache. -/
theorem adapter_two_step_selection_witness :
    selectCertificate (fun _ => some [7]) [("h", ⟨[1], [2], 0, 10⟩)] 5
        ["acme-tls/1"] "h" = ServeDecision.challengeCert [7] ∧
    selectCertificate (fun _ => some [7]) [("h", ⟨[1], [2], 0, 10⟩)] 5
        ["h2"] "h" = ServeDecision.cachedCert ⟨[1], [2], 0, 10⟩ :=
  ⟨((adapter_two_step_selection (fun _ => some [7]) [("h", ⟨[1], [2], 0, 10⟩)] 5
        ["acme-tls/1"] "h").1 (by decide)).1 [7] rfl,
   (((adapter_two_step_selection (fun _ => some [7]) [("h", ⟨[1], [2], 0, 10⟩)] 5
        ["h2"] "h").2 (by decide)).1 ⟨[1], [2], 0, 10⟩ (by decide)).1 (by decide)⟩

/-- Claim C7: the orchestrator posts the CSR to the finalize URL only on the
transition entered by a poll result whose authorizations are all valid, so in
the resulting finalizing phase every authorization of the order is valid; and
a poll result containing any invalid authorization aborts the whole order
immediately. -/
theorem finalize_requires_all_valid (ph : OrderPhase) (inp : OrchestratorInput) :
    ((orchestratorStep ph inp).2 = some OrchestratorAction.postFinalize →
      ∃ authz, (orchestratorStep ph inp).1 = OrderPhase.finalizing authz ∧
        inp = OrchestratorInput.pollResult authz ∧
        authz.all (fun s => s = AuthzStatus.valid) = true) ∧
    (∀ authz prev, authz.contains AuthzStatus.invalid = true →
      orchestratorStep (OrderPhase.authzInFlight prev) (OrchestratorInput.pollResult authz)
        = (OrderPhase.orderInvalid, some OrchestratorAction.abortOrder)) := by
  constructor
  · intro hact
    cases ph with
    | authzInFlight prev =>
      cases inp with
      | pollResult authz =>
        by_cases hinv : AuthzStatus.invalid ∈ authz
        · exfalso
          simp [orchestratorStep, hinv] at hact
        · by_cases hall : ∀ x ∈ authz, x = AuthzStatus.valid
          · refine ⟨authz, ?_, rfl, ?_⟩
            · simp only [orchestratorStep]
              rw [if_neg (by simpa using hinv), if_pos (by simpa using hall)]
            · simpa using hall
          · exfalso
            simp [orchestratorStep, hinv, hall] at hact
      | orderResponse n => simp [orchestratorStep] at hact
      | finalizeResponse ok => simp [orchestratorStep] at hact
      | certificateResponse => simp [orchestratorStep] at hact
    | created => cases inp <;> simp [orchestratorStep] at hact
    | finalizing authz =>
      cases inp with
      | finalizeResponse ok => cases ok <;> simp [orchestratorStep] at hact
      | orderResponse n => simp [orchestratorStep] at hact
      | pollResult a => simp [orchestratorStep] at hact
      | certificateResponse => simp [orchestratorStep] at hact
    | orderValid authz => cases inp <;> simp [orchestratorStep] at hact
    | downloaded authz => cases inp <;> simp [orchestratorStep] at hact
    | orderInvalid => cases inp <;> simp [orchestratorStep] at hact
  · intro authz prev hinv
    have hmem : AuthzStatus.invalid ∈ authz := by simpa using hinv
    simp [orchestratorStep, hmem]

/-- Witness for claim C7: a poll with all authorizations valid finalizes, a
poll containing an invalid authorization aborts. -/
theorem finalize_requires_all_valid_witness :
    (∃ authz,
      (orchestratorStep (OrderPhase.authzInFlight [AuthzStatus.pending])
          (OrchestratorInput.pollResult [AuthzStatus.valid, AuthzStatus.valid])).1
        = OrderPhase.finalizing authz ∧
      OrchestratorInput.pollResult [AuthzStatus.valid, AuthzStatus.valid]
        = OrchestratorInput.pollResult authz ∧
      authz.all (fun s => s = AuthzStatus.valid) = true) ∧
    orchestratorStep (OrderPhase.authzInFlight [AuthzStatus.pending])
        (OrchestratorInput.pollResult [AuthzStatus.valid, AuthzStatus.invalid])
      = (OrderPhase.orderInvalid, some OrchestratorAction.abortOrder) :=
  ⟨(finalize_requires_all_valid (OrderPhase.authzInFlight [AuthzStatus.pending])
      (OrchestratorInput.pollResult [AuthzStatus.valid, AuthzStatus.valid])).1 (by decide),
   (finalize_requires_all_valid (OrderPhase.authzInFlight [AuthzStatus.pending])
      (OrchestratorInput.pollResult [AuthzStatus.valid, AuthzStatus.invalid])).2
     [AuthzStatus.valid, AuthzStatus.invalid] [AuthzStatus.pending] (by decide)⟩

/-- Claim C8: the ACME module exposes the two distinct CA directory url
constants, production and staging, with exactly the documented values. -/
theorem acme_directory_url_constants :
    LETS_ENCRYPT_PRODUCTION = "https://acme-v02.api.letsencrypt.org/directory" ∧
    LETS_ENCRYPT_STAGING = "https://acme-staging-v02.api.letsencrypt.org/directory" ∧
    LETS_ENCRYPT_PRODUCTION ≠ LETS_ENCRYPT_STAGING := by
  refine ⟨rfl, rfl, ?_⟩
  decide

theorem isPrefixOf_append_singleton (l m : List String) (x : String)
    (h : l.isPrefixOf m = true) : l.isPrefixOf (m ++ [x]) = true := by
  induction l generalizing m with
  | nil => simp [List.isPrefixOf]
  | cons a l ih =>
    cases m with
    | nil => simp [List.isPrefixOf] at h
    | cons b m2 =>
      simp only [List.isPrefixOf, Bool.and_eq_true] at h
      simp only [List.cons_append, List.isPrefixOf, Bool.and_eq_true]
      exact ⟨h.1, ih m2 h.2⟩

theorem files_call_fileBody_cases (svc : Files) (fs : List String → FsNode)
    (method : Method) (uriPath : String) (served : List String)
    (h : Files.call svc fs method uriPath = FilesResponse.fileBody served) :
    svc.path.isPrefixOf (resolveRequestPath svc.path uriPath) = true ∧
    (served = resolveRequestPath svc.path uriPath ∨
      ∃ index, svc.index_file = some index ∧
        served = resolveRequestPath svc.path uriPath ++ [index]) := by
  simp only [Files.call] at h
  by_cases hm : method = Method.GET
  case neg =>
    rw [if_pos hm] at h
    simp at h
  case pos =>
    subst hm
    rw [if_neg (by simp)] at h
    by_cases hpre : svc.path.isPrefixOf (resolveRequestPath svc.path uriPath) = true
    case neg =>
      rw [if_pos hpre] at h
      simp at h
    case pos =>
      refine ⟨hpre, ?_⟩
      rw [if_neg (by simp [hpre])] at h
      by_cases hmiss : fs (resolveRequestPath svc.path uriPath) = FsNode.missing
      · rw [if_pos hmiss] at h
        simp at h
      · rw [if_neg hmiss] at h
        by_cases hfile : fs (resolveRequestPath svc.path uriPath) = FsNode.file
        · rw [if_pos hfile] at h
          simp only [FilesResponse.fileBody.injEq] at h
          exact Or.inl h.symm
        · rw [if_neg hfile] at h
          cases hidx : svc.index_file with
          | some index =>
            rw [hidx] at h
            dsimp only at h
            by_cases hif : fs (resolveRequestPath svc.path uriPath ++ [index]) = FsNode.file
            · rw [if_pos hif] at h
              simp only [FilesResponse.fileBody.injEq] at h
              exact Or.inr ⟨index, rfl, h.symm⟩
            · rw [if_neg hif] at h
              by_cases hsl : svc.show_files_listing = true
              · rw [if_pos hsl] at h
                simp at h
              · rw [if_neg hsl] at h
                simp at h
          | none =>
            rw [hidx] at h
            dsimp only at h
            by_cases hsl : svc.show_files_listing = true
            · rw [if_pos hsl] at h
              simp at h
            · rw [if_neg hsl] at h
              simp at h

/-- Claim C9: the static-file service rejects every non-GET request with
METHOD_NOT_ALLOWED; when the path resolved from the request URI (skipping
dot components, popping one component per dot-dot) does not start with the
configured base directory, the answer is FORBIDDEN whatever the filesystem
holds; and any served file body lies at a path starting with the base
directory. -/
theorem files_call_confines_to_base (svc : Files) (fs : List String → FsNode)
    (method : Method) (uriPath : String) :
    (method ≠ Method.GET →
      Files.call svc fs method uriPath
        = FilesResponse.error StatusCode.METHOD_NOT_ALLOWED) ∧
    (svc.path.isPrefixOf (resolveRequestPath svc.path uriPath) = false →
      Files.call svc fs Method.GET uriPath
        = FilesResponse.error StatusCode.FORBIDDEN) ∧
    (∀ served, Files.call svc fs method uriPath = FilesResponse.fileBody served →
      svc.path.isPrefixOf served = true) := by
  refine ⟨?_, ?_, ?_⟩
  · intro h
    simp only [Files.call]
    rw [if_pos h]
  · intro h
    simp only [Files.call]
    rw [if_neg (by simp), if_pos (by simp [h])]
  · intro served h
    obtain ⟨hpre, hcases⟩ := files_call_fileBody_cases svc fs method uriPath served h
    cases hcases with
    | inl he =>
      rw [he]
      exact hpre
    | inr hex =>
      obtain ⟨index, hidx, he⟩ := hex
      rw [he]
      exact isPrefixOf_append_singleton _ _ _ hpre

/-- Witness for claim C9: a POST is rejected, a traversal attempt escaping
the base directory is FORBIDDEN, and a served file stays under the base. -/
theorem files_call_confines_to_base_witness :
    Files.call { path := ["www"], show_files_listing := false, index_file := none }
        (fun _ => FsNode.missing) Method.POST "a"
      = FilesResponse.error StatusCode.METHOD_NOT_ALLOWED ∧
    Files.call { path := ["www"], show_files_listing := false, index_file := none }
        (fun _ => FsNode.missing) Method.GET "/../etc/passwd"
      = FilesResponse.error StatusCode.FORBIDDEN ∧
    (["www"] : List String).isPrefixOf ["www", "a"] = true :=
  ⟨(files_call_confines_to_base
      { path := ["www"], show_files_listing := false, index_file := none }
      (fun _ => FsNode.missing) Method.POST "a").1 (by decide),
   (files_call_confines_to_base
      { path := ["www"], show_files_listing := false, index_file := none }
      (fun _ => FsNode.missing) Method.GET "/../etc/passwd").2.1 (by decide),
   (files_call_confines_to_base
      { path := ["www"], show_files_listing := false, index_file := none }
      (fun _ => FsNode.file) Method.GET "a").2.2 ["www", "a"] (by decide)⟩

/-- Claim C10: the websocket extractor answers BAD_REQUEST whenever the
method is not GET, the Connection, Upgrade or Sec-WebSocket-Version header
differs from its exact expected value, or the Sec-WebSocket-Key header is
missing; and whenever extraction succeeds the extracted key is exactly the
request's Sec-WebSocket-Key header value. -/
theorem websocket_from_request_checks (req : WsRequest) :
    (¬ (req.method = Method.GET ∧ req.connection = some "Upgrade" ∧
        req.upgrade = some "websocket" ∧ req.sec_websocket_version = some "13" ∧
        req.sec_websocket_key.isSome = true) →
      WebSocket.from_request req = Except.error StatusCode.BAD_REQUEST) ∧
    (∀ ws, WebSocket.from_request req = Except.ok ws →
      req.sec_websocket_key = some ws.key) := by
  constructor
  · intro h
    unfold WebSocket.from_request
    by_cases h4 : req.method ≠ Method.GET ∨ req.connection ≠ some "Upgrade" ∨
        req.upgrade ≠ some "websocket" ∨ req.sec_websocket_version ≠ some "13"
    · rw [if_pos h4]
    · rw [if_neg h4]
      push_neg at h4
      obtain ⟨h1, h2, h3, hv⟩ := h4
      cases hk : req.sec_websocket_key with
      | none => rfl
      | some k => exact absurd ⟨h1, h2, h3, hv, by simp [hk]⟩ h
  · intro ws hws
    unfold WebSocket.from_request at hws
    by_cases h4 : req.method ≠ Method.GET ∨ req.connection ≠ some "Upgrade" ∨
        req.upgrade ≠ some "websocket" ∨ req.sec_websocket_version ≠ some "13"
    · rw [if_pos h4] at hws
      simp at hws
    · rw [if_neg h4] at hws
      cases hk : req.sec_websocket_key with
      | none =>
        rw [hk] at hws
        simp at hws
      | some k =>
        rw [hk] at hws
        dsimp only at hws
        by_cases hup : req.on_upgrade_present = true
        · rw [if_pos hup] at hws
          simp only [Except.ok.injEq] at hws
          rw [← hws]
        · rw [if_neg hup] at hws
          simp at hws

/-- Witness for claim C10: a POST upgrade attempt is BAD_REQUEST and a
well-formed handshake extracts the request's key. -/
theorem websocket_from_request_checks_witness :
    WebSocket.from_request
      { method := Method.POST, connection := some "Upgrade",
        upgrade := some "websocket", sec_websocket_version := some "13",
        sec_websocket_key := some "abc", sec_websocket_protocol := none,
        on_upgrade_present := true }
      = Except.error StatusCode.BAD_REQUEST ∧
    (some "abc" : Option String)
      = some ({ key := "abc", protocols := none,
                sec_websocket_protocol := none } : WebSocket).key :=
  ⟨(websocket_from_request_checks
      { method := Method.POST, connection := some "Upgrade",
        upgrade := some "websocket", sec_websocket_version := some "13",
        sec_websocket_key := some "abc", sec_websocket_protocol := none,
        on_upgrade_present := true }).1 (by decide),
   (websocket_from_request_checks
      { method := Method.GET, connection := some "Upgrade",
        upgrade := some "websocket", sec_websocket_version := some "13",
        sec_websocket_key := some "abc", sec_websocket_protocol := none,
        on_upgrade_present := true }).2
     { key := "abc", protocols := none, sec_websocket_protocol := none }
     rfl⟩
